import Mathlib

/-!
Verification development for the multimodal RAG backend
(`backend/app`).  The Python source is shallowly embedded:

* Python exceptions are modelled by the observable data the code under
  `app/utils/rate_limit.py` actually inspects: the type name and the
  `str()` text of the exception and of its `__cause__`, `__context__`
  and exception-valued `args` entries.  The attribute-based fallbacks
  (`status_code`, `code`, `retry_after`, `details`) are not part of the
  textual model; the ranges they enforce are noted where relevant.
* `re.search` over the fixed pattern list of
  `extract_wait_seconds_from_error` is embedded by a small
  leftmost-match backtracking matcher whose pattern combinators cover
  exactly the constructs those regexes use (case-insensitive literals,
  `\s*`/`\s+`, greedy captured numerals `\d+(\.\d+)?`, `s?`,
  a negative lookahead, `[^}]*`, `[^\d]`).
* Python `float` arithmetic is modelled by exact rational arithmetic
  (`ℚ`); Python `int(x)` is truncation toward zero.
-/

/-! ## Generic string helpers (Python `in`, `str.startswith`, lowering) -/

def listStartsWith : List Char → List Char → Bool
  | [], _ => true
  | _ :: _, [] => false
  | n :: ns, h :: hs => n == h && listStartsWith ns hs

def listContainsSub (needle : List Char) : List Char → Bool
  | [] => needle.isEmpty
  | h :: tl => listStartsWith needle (h :: tl) || listContainsSub needle tl

/-- Python `needle in hay` on strings. -/
def subStr (needle hay : String) : Bool :=
  listContainsSub needle.toList hay.toList

/-- Python `hay.startswith(needle)`. -/
def pyStartsWith (hay needle : String) : Bool :=
  listStartsWith needle.toList hay.toList

def lowerStr (s : String) : String :=
  String.mk (s.toList.map Char.toLower)

/-- Python `s.strip()`: drop whitespace from both ends. -/
def pyStrip (s : String) : String :=
  String.mk (((s.toList.dropWhile Char.isWhitespace).reverse.dropWhile
    Char.isWhitespace).reverse)

/-- Remainder of `hay` just after the first occurrence of `needle`
(none when `needle` does not occur). -/
def dropAfterFirst (needle : List Char) : List Char → Option (List Char)
  | [] => if needle.isEmpty then some [] else none
  | h :: tl =>
    if listStartsWith needle (h :: tl) then some ((h :: tl).drop needle.length)
    else dropAfterFirst needle tl

/-- Existence semantics of `re.search` for patterns of the shape
`A.*B.*…` : each literal part occurs, in order. -/
def containsSeqChars : List (List Char) → List Char → Bool
  | [], _ => true
  | p :: ps, hay =>
    match dropAfterFirst p hay with
    | some rest => containsSeqChars ps rest
    | none => false

def seqSearch (parts : List String) (hay : String) : Bool :=
  containsSeqChars (parts.map String.toList) hay.toList

def firstSome (f : α → Option β) : List α → Option β
  | [] => none
  | a :: tl =>
    match f a with
    | some b => some b
    | none => firstSome f tl

/-! ## Python exceptions, modelled textually -/

/-- Observable data of one exception object: its class name and its
`str()` text. -/
structure ExnInfo where
  typeName : String
  text : String
deriving DecidableEq

/-- A Python exception as inspected by `app/utils/rate_limit.py`:
the main exception plus its `__cause__`, `__context__` and any
exception-valued entries of `args`. -/
structure PyExn where
  typeName : String
  text : String
  cause : Option ExnInfo
  context : Option ExnInfo
  argExns : List ExnInfo
deriving DecidableEq

def optInfoToList : Option ExnInfo → List ExnInfo
  | none => []
  | some i => [i]

/-- The texts walked by `extract_wait_seconds_from_error`
(`errors_to_check`): main error, `__cause__`, `__context__`, `args`. -/
def chainTexts (e : PyExn) : List String :=
  e.text ::
    ((optInfoToList e.cause ++ optInfoToList e.context ++ e.argExns).map ExnInfo.text)

/-- The texts walked by `is_rate_limit_error`: main error, `__cause__`,
`__context__` (`args` are not inspected there). -/
def rlTexts (e : PyExn) : List String :=
  e.text :: ((optInfoToList e.cause ++ optInfoToList e.context).map ExnInfo.text)

def rlTypes (e : PyExn) : List String :=
  e.typeName :: ((optInfoToList e.cause ++ optInfoToList e.context).map ExnInfo.typeName)

/-! ## `is_rate_limit_error` (rate_limit.py lines 113-192) -/

def rlIndicatorsPlain : List String :=
  ["ratelimiterror", "rate_limit", "resource_exhausted", "quota_exceeded",
   "429", "too_many_requests"]

/-- `is_rate_limit_error(error)`.  The two `.*` indicators are checked
literally against `all_types` (Python `in`) and as an ordered-parts
search against `all_text` (`re.search`), exactly as lines 150-166 do;
the `status_code`/`code` attribute checks of lines 168-179 are outside
the textual exception model. -/
def isRateLimitError (e : PyExn) : Bool :=
  let allText := String.intercalate " " ((rlTexts e).map lowerStr)
  let allTypes := String.intercalate " " ((rlTypes e).map lowerStr)
  (subStr "resourceexhausted" allTypes || subStr "ResourceExhausted" e.typeName)
  || rlIndicatorsPlain.any (fun ind => subStr ind allTypes || subStr ind allText)
  || (subStr "exceeded.*quota" allTypes || seqSearch ["exceeded", "quota"] allText)
  || (subStr "quota.*limit" allTypes || seqSearch ["quota", "limit"] allText)
  || seqSearch ["exceeded", "quota"] allText
  || seqSearch ["quota", "exceeded"] allText
  || seqSearch ["429", "quota"] allText
  || seqSearch ["rate", "limit", "exceeded"] allText

/-! ## Leftmost-match backtracking matcher for the wait-extraction
regexes (rate_limit.py lines 43-86) -/

/-- A nondeterministic pattern step: possible remainders of the input
after this step, in backtracking priority order (greedy first). -/
def NDet : Type := List Char → List (List Char)

def charEqCI (a b : Char) : Bool := a.toLower == b.toLower

def litCIAux : List Char → List Char → Option (List Char)
  | [], cs => some cs
  | _ :: _, [] => none
  | n :: ns, c :: cs => if charEqCI n c then litCIAux ns cs else none

/-- Case-insensitive literal. -/
def ndLit (s : String) : NDet := fun cs =>
  match litCIAux s.toList cs with
  | some r => [r]
  | none => []

/-- Greedy `c*` for a character class `p`: remainders from maximal
consumption down to none. -/
def starSplits (p : Char → Bool) : NDet := fun cs =>
  let run := (cs.takeWhile p).length
  (List.range (run + 1)).map (fun i => cs.drop (run - i))

/-- Greedy `c+` for a character class `p`. -/
def plusSplits (p : Char → Bool) : NDet := fun cs =>
  let run := (cs.takeWhile p).length
  (List.range run).map (fun i => cs.drop (run - i))

/-- A single character of class `p` (e.g. `[^\d]`). -/
def ndClass (p : Char → Bool) : NDet := fun cs =>
  match cs with
  | [] => []
  | c :: r => if p c then [r] else []

/-- Greedy optional character (`s?`), case-insensitive. -/
def ndOptChar (c : Char) : NDet := fun cs =>
  match cs with
  | [] => [[]]
  | x :: r => if charEqCI x c then [r, x :: r] else [x :: r]

/-- Zero-width negative lookahead on a literal (`(?!econds)`). -/
def ndNotLit (s : String) : NDet := fun cs =>
  match litCIAux s.toList cs with
  | some _ => []
  | none => [cs]

def ndId : NDet := fun cs => [cs]

def ndSeq (a b : NDet) : NDet := fun cs => (a cs).flatMap b

def ndCat (l : List NDet) : NDet := l.foldr ndSeq ndId

/-- Python `\s`.  (The embedding uses the ASCII whitespace class.) -/
def wsChar (c : Char) : Bool := c.isWhitespace

def ws0 : NDet := starSplits wsChar

def ws1 : NDet := plusSplits wsChar

/-- All ways to split off a leading nonempty digit run, longest first:
the backtracking alternatives of a greedy `\d+`. -/
def digitSplitPairs (cs : List Char) : List (List Char × List Char) :=
  let run := cs.takeWhile Char.isDigit
  let n := run.length
  (List.range n).map (fun i => (run.take (n - i), cs.drop (n - i)))

/-- Backtracking alternatives of the captured numeral
`(\d+(?:\.\d+)?)` (or `(\d+)` when `allowFrac` is false):
pairs (captured characters, remainder), priority order. -/
def numCaptures (allowFrac : Bool) (cs : List Char) : List (List Char × List Char) :=
  (digitSplitPairs cs).flatMap (fun dp =>
    let fracOpts :=
      if allowFrac then
        match dp.2 with
        | '.' :: rest2 =>
          (digitSplitPairs rest2).map (fun fp => (dp.1 ++ '.' :: fp.1, fp.2))
        | _ => []
      else []
    fracOpts ++ [dp])

/-- One extraction regex: material before the capture group, whether
the capture allows a fractional part, material after the capture. -/
structure PatSpec where
  pre : NDet
  allowFrac : Bool
  post : NDet

/-- Match a pattern anchored at the current position; first successful
alternative wins (Python backtracking order). -/
def matchCapAt (p : PatSpec) (cs : List Char) : Option (List Char) :=
  ((p.pre cs).flatMap (fun r1 =>
    (numCaptures p.allowFrac r1).flatMap (fun cap =>
      (p.post cap.2).map (fun _ => cap.1)))).head?

/-- `re.search`: try positions left to right, return the first
capture. -/
def searchCap (p : PatSpec) : List Char → Option (List Char)
  | [] => matchCapAt p []
  | c :: tl =>
    match matchCapAt p (c :: tl) with
    | some cap => some cap
    | none => searchCap p tl

def digitVal (c : Char) : Nat := c.toNat - 48

def digitsToNat (cs : List Char) : Nat :=
  cs.foldl (fun acc c => 10 * acc + digitVal c) 0

/-- A nonnegative decimal numeral, exactly: the value is
`mantissa / 10 ^ scale`.  Every wait time the Python code extracts is
such a decimal (`float()` of a `\d+(\.\d+)?` capture), so this models
the float values without loss. -/
structure PyFloat where
  mantissa : Nat
  scale : Nat
deriving DecidableEq

def PyFloat.toRat (f : PyFloat) : ℚ := (f.mantissa : ℚ) / (10 : ℚ) ^ f.scale

/-- `float()` on a captured numeral such as `21.13`. -/
def capToFloat (cs : List Char) : PyFloat :=
  let intPart := cs.takeWhile Char.isDigit
  let rest := cs.dropWhile Char.isDigit
  let frac :=
    match rest with
    | '.' :: fs => fs
    | _ => []
  ⟨digitsToNat (intPart ++ frac), frac.length⟩

/-- The sanity check `0.1 <= wait_time <= 3600` on the decimal
`mantissa / 10 ^ scale`, written multiplicatively over ℕ. -/
def inWaitRange (f : PyFloat) : Bool :=
  10 ^ f.scale ≤ 10 * f.mantissa && f.mantissa ≤ 3600 * 10 ^ f.scale

/-- The range guard applied to the (optional) capture of a pattern
search: every string-pattern return of
`extract_wait_seconds_from_error` passes through it. -/
def rangeGuard (c : Option (List Char)) : Option PyFloat :=
  match c with
  | none => none
  | some cap =>
    let w := capToFloat cap
    if inWaitRange w then some w else none

def runPatOn (p : PatSpec) (cs : List Char) : Option PyFloat :=
  rangeGuard (searchCap p cs)

def lbraceChar : Char := Char.ofNat 123

def rbraceChar : Char := Char.ofNat 125

/-- `retry_delay\s*\x7b[^\x7d]*seconds:\s*(\d+)` (the multi-line
pre-check of lines 64-72). -/
def retryDelayPat : PatSpec :=
  ⟨ndCat [ndLit "retry_delay", ws0, ndLit "\x7b",
          starSplits (fun c => !(c == rbraceChar)), ndLit "seconds:", ws0],
   false, ndId⟩

/-- The ten patterns of lines 45-56, in order. -/
def patternList : List PatSpec :=
  [⟨ndCat [ndLit "please", ws1, ndLit "retry", ws1, ndLit "in", ws1], true,
    ndCat [ws0, ndLit "s"]⟩,
   ⟨ndCat [ndLit "retry", ws1, ndLit "in", ws1], true,
    ndCat [ws0, ndLit "s", ndNotLit "econds"]⟩,
   ⟨ndCat [ndLit "retry", ws1, ndLit "in", ws1], true,
    ndCat [ws0, ndLit "second", ndOptChar 's']⟩,
   ⟨ndCat [ndLit "retry", ws1, ndLit "after", ws1], true,
    ndCat [ws0, ndLit "second", ndOptChar 's']⟩,
   ⟨ndCat [ndLit "retry", ws1, ndLit "after", ws1], true,
    ndCat [ws0, ndLit "s", ndNotLit "econds"]⟩,
   ⟨ndCat [ndLit "wait", ws1], true,
    ndCat [ws0, ndLit "second", ndOptChar 's']⟩,
   ⟨ndId, true,
    ndCat [ws0, ndLit "second", ndOptChar 's', ws0, ndLit "to", ws0, ndLit "retry"]⟩,
   ⟨ndId, true,
    ndCat [ws0, ndLit "s", ndNotLit "econds", ws0, ndClass (fun c => !c.isDigit)]⟩,
   ⟨ndCat [ndLit "retry_delay", ws0, ndLit "\x7b", ws0, ndLit "seconds:", ws0], false,
    ndId⟩,
   ⟨ndCat [ndLit "seconds:", ws0], false, ndId⟩]

/-- Extraction over one error text: the `retry_delay` pre-check, then
each pattern in order; an out-of-range or unparsable candidate falls
through to the next pattern. -/
def extractFromText (s : String) : Option PyFloat :=
  match runPatOn retryDelayPat s.toList with
  | some w => some w
  | none => firstSome (fun p => runPatOn p s.toList) patternList

/-- `extract_wait_seconds_from_error`, over the chained error texts.
(The `retry_after`/`details` attribute fallbacks of lines 88-108,
which enforce the tighter range `[1, 3600]`, are outside the textual
model.) -/
def extractWaitFromTexts (texts : List String) : Option PyFloat :=
  firstSome extractFromText texts

def extractWaitSecondsFromError (e : PyExn) : Option PyFloat :=
  extractWaitFromTexts (chainTexts e)

/-- The extracted wait as a rational number of seconds. -/
def extractWaitQ (texts : List String) : Option ℚ :=
  (extractWaitFromTexts texts).map PyFloat.toRat

/-! ## `with_rate_limit_retry` (rate_limit.py lines 195-276)

The wrapped operation is modelled by the outcome of each attempt
(`op n` = result of the call on attempt `n`, counting from 0).  The
run records the result, the list of `time.sleep` durations performed,
and the number of call attempts made. -/

structure RunOut (A : Type) where
  result : Except PyExn A
  sleeps : List ℚ
  calls : Nat

/-- The wait computed on a rate-limited failure (lines 228-243): the
extracted hint when present, else `default_wait * backoff_multiplier ** attempt`.
No jitter is applied in this function. -/
def computeWait (defaultWait mult : ℚ) (attempt : Nat) (hint : Option PyFloat) : ℚ :=
  match hint with
  | some w => w.toRat
  | none => defaultWait * mult ^ attempt

/-- One iteration of the retry loop at `attempt`, with `remaining`
further attempts allowed (`remaining = max_retries - attempt`).  When
`remaining = 0` the error is re-raised whatever its classification
(rate-limit retries exhausted, or a non-transient error), exactly as
in the source, where the two re-raise paths coincide on the last
attempt. -/
def runRetryAux (op : Nat → Except PyExn A) (defaultWait mult : ℚ) :
    Nat → Nat → RunOut A
  | attempt, 0 =>
    match op attempt with
    | Except.ok a => ⟨Except.ok a, [], 1⟩
    | Except.error e => ⟨Except.error e, [], 1⟩
  | attempt, r + 1 =>
    match op attempt with
    | Except.ok a => ⟨Except.ok a, [], 1⟩
    | Except.error e =>
      if isRateLimitError e then
        let w := computeWait defaultWait mult attempt (extractWaitSecondsFromError e)
        let rest := runRetryAux op defaultWait mult (attempt + 1) r
        ⟨rest.result, w :: rest.sleeps, rest.calls + 1⟩
      else ⟨Except.error e, [], 1⟩

/-- `with_rate_limit_retry(max_retries, default_wait, backoff_multiplier)`
applied to `op`. -/
def withRateLimitRetry (op : Nat → Except PyExn A) (maxRetries : Nat)
    (defaultWait mult : ℚ) : RunOut A :=
  runRetryAux op defaultWait mult 0 maxRetries

/-! ## Sequential batch summarization (summary_service.py lines 191-270
and 417-463)

`summarize_texts_and_tables` / `summarize_images` process the items one
at a time; a per-item exception is caught and recorded as a sentinel
result (`""`); after every item the proportional progress
`int(start + (idx+1) * (end-start)/n)`, clamped to `end`, is reported. -/

/-- Python `int()` on a rational: truncation toward zero. -/
def pyInt (q : ℚ) : ℤ := if 0 ≤ q then ⌊q⌋ else ⌈q⌉

/-- The progress reported after item `idx` of `n`
(`min(int(start_progress + (idx+1) * progress_per_chunk), end_progress)`
with `progress_per_chunk = (end_progress - start_progress) / n`). -/
def progressValue (startP endP : ℤ) (n : Nat) (idx : Nat) : ℤ :=
  min (pyInt ((startP : ℚ) + ((idx : ℚ) + 1) * (((endP : ℚ) - (startP : ℚ)) / (n : ℚ)))) endP

structure BatchOut where
  results : List String
  progress : List ℤ
deriving DecidableEq

/-- The loop body of `summarize_texts_and_tables` (and, identically
structured, `summarize_images`): `op idx item` is the outcome of the
per-item call; an exception becomes the `""` sentinel and the batch
continues. -/
def summarizeBatchAux (op : Nat → A → Except PyExn String) (startP endP : ℤ)
    (n : Nat) : List A → Nat → BatchOut
  | [], _ => ⟨[], []⟩
  | a :: rest, idx =>
    let r :=
      match op idx a with
      | Except.ok s => s
      | Except.error _ => ""
    let out := summarizeBatchAux op startP endP n rest (idx + 1)
    ⟨r :: out.results, progressValue startP endP n idx :: out.progress⟩

def summarizeBatch (items : List A) (op : Nat → A → Except PyExn String)
    (startP endP : ℤ) : BatchOut :=
  summarizeBatchAux op startP endP items.length items 0

/-! ## Per-item error handling of `_summarize_one`
(summary_service.py lines 112-188) and `_summ_img` (lines 382-415) -/

/-- Python `element[:200] + "..." if len(element) > 200 else element`. -/
def truncate200 (element : String) : String :=
  if element.length > 200 then String.mk (element.toList.take 200) ++ "..." else element

/-- The credential-failure test of lines 158-164 / 390-396. -/
def isApiKeyError (e : PyExn) : Bool :=
  subStr "api key" (lowerStr e.text)
  || subStr "api_key_invalid" (lowerStr e.text)
  || subStr "invalid argument provided to gemini" (lowerStr e.text)
  || subStr "api key not valid" (lowerStr e.text)
  || e.typeName == "ChatGoogleGenerativeAIError"

/-- The rate-limit test of lines 166-172 / 398-404 (note `"429" in
error_msg` is on the unlowered text). -/
def isRateLimitTextCheck (e : PyExn) : Bool :=
  subStr "rate limit" (lowerStr e.text)
  || subStr "quota" (lowerStr e.text)
  || subStr "resource exhausted" (lowerStr e.text)
  || subStr "429" e.text
  || subStr "too many requests" (lowerStr e.text)

def summaryLeadIns : List String :=
  ["Here's a concise summary:", "Summary:", "Here's a summary:", "The summary is:"]

def stripOneLeading (result : String) (p : String) : String :=
  if pyStartsWith result p then pyStrip (String.mk (result.toList.drop p.length)) else result

/-- `_summarize_one(element)`, with the outcome of the inner
retry-protected call (`_summarize_one_internal`) supplied as `call`.
On a credential error it returns `""` and the batch continues; on any
other error (rate limit included) it returns the truncated original
text; it never raises. -/
def summarizeOne (element : String) (call : Except PyExn String) : String :=
  if pyStrip element == "" then ""
  else
    match call with
    | Except.ok r0 =>
      let r1 := summaryLeadIns.foldl stripOneLeading (pyStrip r0)
      if r1 == "" || r1.length < 10 then truncate200 element else r1
    | Except.error e =>
      if isApiKeyError e then ""
      else if isRateLimitTextCheck e then truncate200 element
      else truncate200 element

/-- `_summ_img(b64)`, with the outcome of `_summ_img_internal` supplied
as `call`: error-tagged stand-ins, never raises. -/
def summImg (call : Except PyExn String) : String :=
  match call with
  | Except.ok r => pyStrip r
  | Except.error e =>
    if isApiKeyError e then "[ERROR] API key invalid"
    else if isRateLimitTextCheck e then "[ERROR] Rate limit exceeded"
    else "[ERROR] image summarization failed"

/-- The full text/table batch: each item goes through `_summarize_one`
(which never raises), so the per-item `except` arm of the loop is
unreachable and every slot is filled. -/
def summarizeTextsAndTables (items : List String)
    (calls : Nat → Except PyExn String) (startP endP : ℤ) : BatchOut :=
  summarizeBatch items (fun i a => Except.ok (summarizeOne a (calls i))) startP endP

/-! ## Circuit breaker of `build_summaries`
(summary_service.py lines 550-596) and the summarization stage of
`process_upload_background` (upload.py lines 57-124) -/

/-- Failure classification for a text/table summary (line 565). -/
def isFailedTextSummary (s : String) : Bool :=
  s == "" || (pyStrip s).length < 20 || pyStartsWith s "[ERROR]"

/-- Failure classification for an image summary (line 571). -/
def isFailedImageSummary (s : String) : Bool :=
  s == "" || pyStartsWith s "[ERROR]"

def failedCount (tts imgs : List String) : Nat :=
  (tts.filter isFailedTextSummary).length + (imgs.filter isFailedImageSummary).length

def validCount (tts imgs : List String) : Nat :=
  (tts.filter (fun s => !isFailedTextSummary s)).length
    + (imgs.filter (fun s => !isFailedImageSummary s)).length

/-- The batch-level circuit breaker at the end of `build_summaries`:
raises when no valid summary was produced (and there was at least one
item), or when the failure rate exceeds 90%. -/
def circuitBreaker (tts imgs : List String) : Except String Unit :=
  let total := tts.length + imgs.length
  if total == 0 then Except.ok ()
  else if validCount tts imgs == 0 then
    Except.error "Critical summarization failure: all summaries failed"
  else if ((failedCount tts imgs : ℚ) / (total : ℚ)) > 9 / 10 then
    Except.error "Critical summarization failure: failure rate above 90 percent"
  else Except.ok ()

inductive DocStatus
  | processing
  | completed
  | failed
deriving DecidableEq

/-- The document status at the end of `process_upload_background`,
given the produced summaries and whether the indexing step succeeds:
any exception from `build_summaries` (every branch of the handler at
upload.py lines 59-81) marks the document `failed`; an indexing
exception marks it `failed`; otherwise it is marked `completed`. -/
def pipelineFinalStatus (tts imgs : List String) (indexOk : Bool) : DocStatus :=
  match circuitBreaker tts imgs with
  | Except.error _ => DocStatus.failed
  | Except.ok _ => if indexOk then DocStatus.completed else DocStatus.failed

/-! ## ParentChildIndex (vector_service.py lines 20-163)

The persisted per-document parent maps (`data/parents_index/{doc}.json`)
are modelled as a map from document id to an optional JSON object; a
JSON object is an association list in insertion order, mirroring a
Python dict.  `load_json` returns the empty dict when the file does not
exist. -/

/-- One parsed content element (a parent): its `type` and the payload
fields the index stores and retrieval reads back. -/
structure Parent where
  ptype : String
  text : Option String
  tableHtml : Option String
  b64 : Option String
  pageNumber : Option Int
  source : Option String
deriving DecidableEq

/-- The persisted parent-index store: `none` = no file for that doc. -/
def PStore : Type := String → Option (List (String × Parent))

/-- `load_json(_parents_index_path(doc_id))`: empty dict when the file
is absent. -/
def loadParentsIndex (store : PStore) (docId : String) : List (String × Parent) :=
  (store docId).getD []

/-- First-binding lookup, i.e. Python `dict.get`. -/
def lookupDict (m : List (String × Parent)) (k : String) : Option Parent :=
  match m with
  | [] => none
  | kv :: tl => if kv.1 == k then some kv.2 else lookupDict tl k

/-- Python `parent_index[parent_id] = parent`: replace an existing
binding, else append. -/
def dictSet (m : List (String × Parent)) (k : String) (v : Parent) :
    List (String × Parent) :=
  if m.any (fun kv => kv.1 == k) then
    m.map (fun kv => if kv.1 == k then (k, v) else kv)
  else m ++ [(k, v)]

/-- The parents actually indexed by `index_multivector`: text/table
parents aligned with `text_table_summaries` (the loop breaks once the
summaries run out), then image parents aligned with `image_summaries`. -/
def parentsIndexed (textTables images : List Parent)
    (ttSumm imgSumm : List String) : List Parent :=
  (textTables.zip ttSumm).map Prod.fst ++ (images.zip imgSumm).map Prod.fst

/-- `index_multivector(doc_id, parents, summaries)` restricted to its
effect on the persisted parent index: load the existing map for the
document, bind each freshly generated child id (supplied in order in
`ids`, standing for the `uuid.uuid4()` draws) to its parent, save. -/
def indexMultivector (store : PStore) (docId : String)
    (textTables images : List Parent) (ttSumm imgSumm : List String)
    (ids : List String) : PStore :=
  let m0 := loadParentsIndex store docId
  let m1 := ((parentsIndexed textTables images ttSumm imgSumm).zip ids).foldl
    (fun m pv => dictSet m pv.2 pv.1) m0
  fun d => if d == docId then some m1 else store d

/-- Child-id resolution as performed at retrieval time
(vector_service.py lines 218-219): load the persisted map for the
document and look the id up; absence is tolerated, not an error. -/
def resolveParent (store : PStore) (docId childId : String) : Option Parent :=
  lookupDict (loadParentsIndex store docId) childId

/-! ## RetrievalEngine (vector_service.py lines 166-262) -/

/-- One raw vector-store hit: the child document metadata, its summary
text, and the provider score.  (The code drops `None` scores from
`raw_scores`; hits carry a score in this model.) -/
structure Hit where
  docId : Option String
  parentId : Option String
  htype : Option String
  content : String
  score : ℚ
deriving DecidableEq

/-- One retrieval result (the fields the claims are about). -/
structure SourceR where
  parentId : String
  htype : Option String
  summary : String
  score : ℚ
  rawScore : ℚ
deriving DecidableEq

/-- Python `round(x, 4)`, modelled with round-half-up on the rational
value (the float rounding-mode difference at exact half-way points is
immaterial to the ordering and range facts proved here). -/
def round4 (q : ℚ) : ℚ := ((round (q * 10000) : ℤ) : ℚ) / 10000

/-- Score normalization (lines 187-234): in the distance branch,
`max(0, min(1, max(0, 1 - raw/normalization_factor)))`; otherwise
similarities above 1 are rescaled by the observed maximum and clamped. -/
def normalizeScore (normFactor : Option ℚ) (isDistance : Bool) (maxScore raw : ℚ) : ℚ :=
  match normFactor, isDistance with
  | some nf, true => max 0 (min 1 (max 0 (1 - raw / nf)))
  | _, _ =>
    if raw > 1 then (if maxScore > 0 then min 1 (raw / maxScore) else 0)
    else max 0 (min 1 raw)

/-- Python falsiness of an optional string (`if not parent_id`). -/
def strFalsy : Option String → Bool
  | none => true
  | some s => s == ""

/-- Whether the filter loop skips this hit: doc-id mismatch, excluded
image type, missing ids, or unresolvable parent. -/
def skipHit (store : PStore) (documentId : Option String) (includeImages : Bool)
    (h : Hit) : Bool :=
  (match documentId with
   | some d => !(h.docId == some d)
   | none => false)
  || (!includeImages && h.htype == some "image")
  || strFalsy h.parentId
  || strFalsy h.docId
  || (match h.parentId, h.docId with
      | some pid, some did => (resolveParent store did pid).isNone
      | _, _ => true)

def mkSource (normFactor : Option ℚ) (isDistance : Bool) (maxScore : ℚ) (h : Hit) :
    SourceR :=
  ⟨(h.parentId).getD "", h.htype, h.content,
   round4 (normalizeScore normFactor isDistance maxScore h.score),
   round4 h.score⟩

/-- The collection loop (lines 207-257): keep surviving hits in order,
stopping once `taken >= k` — the check sits after the append, so `k = 0`
still lets one source through. -/
def takeSources (store : PStore) (documentId : Option String) (includeImages : Bool)
    (normFactor : Option ℚ) (isDistance : Bool) (maxScore : ℚ) (k : Nat) :
    List Hit → Nat → List SourceR
  | [], _ => []
  | h :: tl, taken =>
    if skipHit store documentId includeImages h then
      takeSources store documentId includeImages normFactor isDistance maxScore k tl taken
    else
      let src := mkSource normFactor isDistance maxScore h
      if k ≤ taken + 1 then [src]
      else src :: takeSources store documentId includeImages normFactor isDistance
        maxScore k tl (taken + 1)

def scoreGE (a b : SourceR) : Prop := b.score ≤ a.score

instance : DecidableRel scoreGE := fun a b => inferInstanceAs (Decidable (b.score ≤ a.score))

instance : IsTotal SourceR scoreGE := ⟨fun a b => le_total b.score a.score⟩

instance : IsTrans SourceR scoreGE := ⟨fun _ _ _ h1 h2 => le_trans h2 h1⟩

/-- `retrieve_with_sources` over the raw hits returned by the
vector-store query: compute the score-normalization mode from the raw
scores, filter/resolve/truncate, then sort descending by normalized
score (`list.sort` is stable, as is insertion sort). -/
def retrieveWithSources (store : PStore) (hits : List Hit) (k : Nat)
    (documentId : Option String) (includeImages : Bool) : List SourceR :=
  let rawScores := hits.map Hit.score
  let maxScore := rawScores.foldr max 0
  let isDistance :=
    match rawScores with
    | [] => false
    | _ => decide (maxScore > 1 / 2) && decide (maxScore < 5 / 2)
  let normFactor : Option ℚ :=
    if isDistance then some (max 2 (maxScore * (11 / 10))) else none
  (takeSources store documentId includeImages normFactor isDistance maxScore k hits 0).insertionSort scoreGE

/-! ## Streaming chat failure handling (chat.py lines 107-186)

An attempt of the provider stream is modelled by the content chunks it
yields before either finishing (`none`) or failing with an exception.
The generator loop retries rate-limited failures up to `max_retries`
times (buffer preserved), otherwise emits an error-tagged chunk and
stops; the `finally` block persists the joined buffer only when it is
nonempty and does not start with the error tag, then emits the
terminal marker. -/

inductive SEvent
  | content (s : String)
  | rateLimit (waitSeconds : ℤ) (retryAttempt maxRetries : Nat)
  | errorTag (s : String)
  | endMarker
deriving DecidableEq

structure StreamOut where
  events : List SEvent
  persisted : Option String
deriving DecidableEq

/-- The wait before a streaming retry (lines 126-133): extracted hint
or `60 * 1.5 ** retry_count`, plus the sampled jitter fraction. -/
def streamWait (e : PyExn) (retry : Nat) (jitter : ℚ) : ℚ :=
  let w :=
    match extractWaitSecondsFromError e with
    | some f => f.toRat
    | none => 60 * (3 / 2 : ℚ) ^ retry
  w + w * jitter

/-- The generator loop; `chunks.filter (· != "")` mirrors the
`if chunk.content:` guard, `fuel` bounds the `while` loop
(`fuel = max_retries + 1 - retry_count`).  Returns the emitted events
and the response buffer. -/
def runStreamAux (attempts : Nat → List String × Option PyExn)
    (maxRetries : Nat) (jitterAt : Nat → ℚ) :
    Nat → Nat → List SEvent × List String
  | _, 0 => ([], [])
  | retry, fuel + 1 =>
    match (attempts retry).2 with
    | none =>
      (((attempts retry).1.filter (fun c => !(c == ""))).map SEvent.content,
       (attempts retry).1.filter (fun c => !(c == "")))
    | some e =>
      if isRateLimitError e && decide (retry < maxRetries) then
        (((attempts retry).1.filter (fun c => !(c == ""))).map SEvent.content
            ++ SEvent.rateLimit (pyInt (streamWait e retry (jitterAt retry)))
                 (retry + 1) (maxRetries + 1)
              :: (runStreamAux attempts maxRetries jitterAt (retry + 1) fuel).1,
         (attempts retry).1.filter (fun c => !(c == ""))
            ++ (runStreamAux attempts maxRetries jitterAt (retry + 1) fuel).2)
      else
        (((attempts retry).1.filter (fun c => !(c == ""))).map SEvent.content
            ++ [SEvent.errorTag ("[ERROR: " ++ e.text ++ "]")],
         (attempts retry).1.filter (fun c => !(c == ""))
            ++ ["[ERROR: " ++ e.text ++ "]"])

/-- Python `"".join(response_buffer)`: concatenation of the chunks. -/
def joinBuffer (buffer : List String) : String :=
  String.mk (buffer.flatMap String.toList)

/-- The whole `event_generator` run: loop, then the `finally` block
(persist unless the joined buffer is empty or starts with `"[ERROR:"`,
then yield the end marker). -/
def runStream (attempts : Nat → List String × Option PyExn)
    (maxRetries : Nat) (jitterAt : Nat → ℚ) : StreamOut :=
  ⟨(runStreamAux attempts maxRetries jitterAt 0 (maxRetries + 1)).1
      ++ [SEvent.endMarker],
   if !(runStreamAux attempts maxRetries jitterAt 0 (maxRetries + 1)).2.isEmpty
       && !pyStartsWith
            (joinBuffer (runStreamAux attempts maxRetries jitterAt 0 (maxRetries + 1)).2)
            "[ERROR:" then
     some (joinBuffer (runStreamAux attempts maxRetries jitterAt 0 (maxRetries + 1)).2)
   else none⟩

/-! ## Document listing (documents.py lines 17-34) -/

/-- A stored document row as the listing endpoint reads it;
`status = none` models a record lacking the attribute, for which
`getattr(d, "status", "completed")` yields the default. -/
structure StoredDoc where
  id : String
  name : String
  pages : Nat
  status : Option String
  progress : Option ℤ
deriving DecidableEq

structure DocumentRead where
  id : String
  name : String
  pages : Nat
  status : String
  progress : ℤ
deriving DecidableEq

def getattrStatus (d : StoredDoc) : String := (d.status).getD "completed"

def renderDoc (d : StoredDoc) : DocumentRead :=
  ⟨d.id, d.name, d.pages, getattrStatus d, (d.progress).getD 0⟩

/-- `get_documents`: render every stored row whose (defaulted) status
is not `"failed"`. -/
def getDocuments (docs : List StoredDoc) : List DocumentRead :=
  (docs.filter (fun d => !(getattrStatus d == "failed"))).map renderDoc

/-! ## Concrete exemplars used by witnesses and counterexamples -/

def rl429Exn : PyExn := ⟨"Exception", "429 too many requests", none, none, []⟩

def authExn : PyExn := ⟨"ValueError", "API key not valid", none, none, []⟩

def hint2113Exn : PyExn :=
  ⟨"Exception", "429 quota exceeded, please retry in 21.13s", none, none, []⟩

def boomExn : PyExn := ⟨"RuntimeError", "boom", none, none, []⟩

def exParentText : Parent := ⟨"text", some "hello world", none, none, some 1, some "chunk-1"⟩

def exParentTable : Parent := ⟨"table", some "totals", some "<table/>", none, some 2, none⟩

def exStoreEmpty : PStore := fun _ => none

def exStoreIndexed : PStore :=
  indexMultivector exStoreEmpty "doc1" [exParentText, exParentTable] []
    ["first summary", "second summary"] [] ["child-a", "child-b"]

def exHit : Hit := ⟨some "doc1", some "child-a", some "text", "first summary", 6 / 5⟩

def exDocFailed : StoredDoc := ⟨"d1", "one.pdf", 3, some "failed", some 0⟩

def exDocNoStatus : StoredDoc := ⟨"d2", "two.pdf", 5, none, none⟩

def goodSummary : String := "a perfectly fine long generated summary"

/-! ## Helper lemmas -/

theorem inWaitRange_toRat {f : PyFloat} (h : inWaitRange f = true) :
    (1 / 10 : ℚ) ≤ f.toRat ∧ f.toRat ≤ 3600 := by
  unfold inWaitRange at h
  rw [Bool.and_eq_true, decide_eq_true_eq, decide_eq_true_eq] at h
  obtain ⟨h1, h2⟩ := h
  have h1q : ((10 ^ f.scale : ℕ) : ℚ) ≤ ((10 * f.mantissa : ℕ) : ℚ) := Nat.cast_le.mpr h1
  have h2q : ((f.mantissa : ℕ) : ℚ) ≤ ((3600 * 10 ^ f.scale : ℕ) : ℚ) := Nat.cast_le.mpr h2
  push_cast at h1q h2q
  constructor
  · rw [PyFloat.toRat, div_le_div_iff₀ (by norm_num : (0 : ℚ) < 10) (by positivity)]
    linarith
  · rw [PyFloat.toRat, div_le_iff₀ (by positivity)]
    linarith

theorem rangeGuard_some {c : Option (List Char)} {f : PyFloat}
    (h : rangeGuard c = some f) : inWaitRange f = true := by
  unfold rangeGuard at h
  cases c with
  | none => exact absurd h (by simp)
  | some cap =>
    simp only [] at h
    split at h
    · cases h
      assumption
    · cases h

theorem runPatOn_some {p : PatSpec} {cs : List Char} {f : PyFloat}
    (h : runPatOn p cs = some f) : inWaitRange f = true :=
  rangeGuard_some h

theorem firstSome_some {f : α → Option β} {b : β} :
    ∀ {l : List α}, firstSome f l = some b → ∃ a ∈ l, f a = some b := by
  intro l
  induction l with
  | nil => intro h; exact absurd h (by simp [firstSome])
  | cons hd tl ih =>
    intro h
    unfold firstSome at h
    revert h
    cases hfa : f hd with
    | some b2 => intro h; cases h; exact ⟨hd, by simp, hfa⟩
    | none =>
      intro h
      obtain ⟨a, ha, hfa2⟩ := ih h
      exact ⟨a, by simp [ha], hfa2⟩

theorem extractFromText_some {s : String} {f : PyFloat}
    (h : extractFromText s = some f) : inWaitRange f = true := by
  unfold extractFromText at h
  revert h
  cases hrd : runPatOn retryDelayPat s.toList with
  | some f2 =>
    intro h
    cases h
    exact runPatOn_some hrd
  | none =>
    intro h
    obtain ⟨p, _, hp⟩ := firstSome_some h
    exact runPatOn_some hp

theorem extractWaitFromTexts_some {texts : List String} {f : PyFloat}
    (h : extractWaitFromTexts texts = some f) : inWaitRange f = true := by
  obtain ⟨t, _, ht⟩ := firstSome_some h
  exact extractFromText_some ht

/-! ## Claim C4 -/

/-- Claim C4 counterexample: the code accepts an extracted wait of
exactly 0.1 seconds (its guard is `0.1 <= wait_time <= 3600`), so a
successfully extracted value does not always lie strictly above 0.1
as the claim states. -/
theorem claim_C4_counterexample :
    extractWaitQ ["please retry in 0.1s"] = some (1 / 10 : ℚ) ∧
    ¬ ((1 / 10 : ℚ) > 1 / 10) := by
  constructor
  · have h : extractWaitFromTexts ["please retry in 0.1s"] = some ⟨1, 1⟩ := by decide
    rw [extractWaitQ, h]
    norm_num [PyFloat.toRat]
  · norm_num

/-- Claim C4, amended: the wait extracted from the canonical texts
"please retry in 21.13s" and "retry_delay { seconds: 23 }" equals
21.13 and 23 respectively; whenever extraction succeeds on any chain
of error texts the value lies in the closed interval [0.1, 3600] (the
lower bound 0.1 itself is accepted); a candidate outside that range is
skipped, e.g. "please retry in 5000s" extracts nothing. -/
theorem claim_C4 :
    extractWaitQ ["please retry in 21.13s"] = some (2113 / 100 : ℚ) ∧
    extractWaitQ ["retry_delay \x7b seconds: 23 \x7d"] = some 23 ∧
    (∀ (texts : List String) (w : ℚ), extractWaitQ texts = some w →
      (1 / 10 : ℚ) ≤ w ∧ w ≤ 3600) ∧
    extractWaitQ ["please retry in 5000s"] = none := by
  refine ⟨?_, ?_, ?_, ?_⟩
  · have h : extractWaitFromTexts ["please retry in 21.13s"] = some ⟨2113, 2⟩ := by decide
    rw [extractWaitQ, h]
    norm_num [PyFloat.toRat]
  · have h : extractWaitFromTexts ["retry_delay \x7b seconds: 23 \x7d"] = some ⟨23, 0⟩ := by
      decide
    rw [extractWaitQ, h]
    norm_num [PyFloat.toRat]
  · intro texts w h
    rw [extractWaitQ] at h
    obtain ⟨f, hf, hfw⟩ := Option.map_eq_some'.mp h
    subst hfw
    exact inWaitRange_toRat (extractWaitFromTexts_some hf)
  · have h : extractWaitFromTexts ["please retry in 5000s"] = none := by decide
    rw [extractWaitQ, h]
    rfl

theorem claim_C4_witness :
    (1 / 10 : ℚ) ≤ (2113 / 100 : ℚ) ∧ (2113 / 100 : ℚ) ≤ 3600 :=
  claim_C4.2.2.1 ["please retry in 21.13s"] (2113 / 100) claim_C4.1

/-! ## Claim C5 -/

/-- Claim C5: an error the classifier marks as non-rate-limit is
re-raised immediately by `with_rate_limit_retry`: exactly one call
attempt, no sleep, and the original error object propagates. -/
theorem claim_C5 {A : Type} (op : Nat → Except PyExn A) (maxRetries : Nat)
    (defaultWait mult : ℚ) (e : PyExn)
    (h1 : op 0 = Except.error e) (h2 : isRateLimitError e = false) :
    withRateLimitRetry op maxRetries defaultWait mult =
      ⟨Except.error e, [], 1⟩ := by
  unfold withRateLimitRetry
  cases maxRetries with
  | zero => simp [runRetryAux, h1]
  | succ n => simp [runRetryAux, h1, h2]

theorem claim_C5_witness :
    withRateLimitRetry (fun _ => (Except.error authExn : Except PyExn String)) 3 60 (3 / 2)
      = ⟨Except.error authExn, [], 1⟩ :=
  claim_C5 (fun _ => (Except.error authExn : Except PyExn String)) 3 60 (3 / 2) authExn rfl
    (by decide)

/-! ## Claim C6 -/

theorem runRetryAux_sleeps_const {A : Type} (e : PyExn) (d m : ℚ)
    (h1 : isRateLimitError e = true) :
    ∀ (r t : Nat),
      (runRetryAux (fun _ => (Except.error e : Except PyExn A)) d m t r).sleeps
        = (List.range r).map
            (fun i => computeWait d m (t + i) (extractWaitSecondsFromError e)) := by
  intro r
  induction r with
  | zero =>
    intro t
    simp [runRetryAux, h1]
  | succ n ih =>
    intro t
    unfold runRetryAux
    simp only [h1, if_true]
    rw [List.range_succ_eq_map, List.map_cons, List.map_map]
    show computeWait d m t (extractWaitSecondsFromError e) :: _ = _
    congr 1
    rw [ih (t + 1)]
    refine List.map_congr_left ?_
    intro i _
    simp only [Function.comp_apply]
    have hidx : t + 1 + i = t + Nat.succ i := by omega
    rw [hidx]

/-- Claim C6 counterexample: on a hintless rate-limited failure at
attempt 0 with `default_wait = 60`, `with_rate_limit_retry` sleeps for
exactly 60 seconds — no 10-20% jitter is added (the claimed sleep
would lie in [66, 72]). -/
theorem claim_C6_counterexample :
    (withRateLimitRetry (fun _ => (Except.error rl429Exn : Except PyExn Unit)) 3 60 2).sleeps.head?
        = some 60 ∧
    ¬ ((60 : ℚ) * (11 / 10) ≤ 60) := by
  constructor
  · have h := runRetryAux_sleeps_const (A := Unit) rl429Exn 60 2 (by decide) 3 0
    have hx : extractWaitSecondsFromError rl429Exn = none := by decide
    rw [withRateLimitRetry, h, hx]
    rw [show List.range 3 = [0, 1, 2] from by decide]
    simp [computeWait]
  · norm_num

/-- Claim C6, amended: on the rate-limited failure of attempt `a`
(counting from 0), `with_rate_limit_retry` sleeps exactly the
classifier hint when one is extracted and exactly
`default_wait * backoff_multiplier ^ a` otherwise — no jitter is added
in this function; for hintless failures the computed wait is strictly
increasing across attempts whenever `default_wait > 0` and
`backoff_multiplier > 1`. -/
theorem claim_C6 (e1 e2 : PyExn) (d m : ℚ) (maxR : Nat) (f : PyFloat)
    (hrl1 : isRateLimitError e1 = true) (hx1 : extractWaitSecondsFromError e1 = none)
    (hrl2 : isRateLimitError e2 = true) (hx2 : extractWaitSecondsFromError e2 = some f) :
    (withRateLimitRetry (fun _ => (Except.error e1 : Except PyExn Unit)) maxR d m).sleeps
        = (List.range maxR).map (fun a => d * m ^ a) ∧
    (withRateLimitRetry (fun _ => (Except.error e2 : Except PyExn Unit)) maxR d m).sleeps
        = List.replicate maxR f.toRat ∧
    (0 < d → 1 < m → ∀ a b : Nat, a < b → d * m ^ a < d * m ^ b) := by
  refine ⟨?_, ?_, ?_⟩
  · rw [withRateLimitRetry, runRetryAux_sleeps_const e1 d m hrl1 maxR 0, hx1]
    refine List.map_congr_left ?_
    intro i _
    simp [computeWait]
  · rw [withRateLimitRetry, runRetryAux_sleeps_const e2 d m hrl2 maxR 0, hx2]
    have : ∀ i ∈ List.range maxR, computeWait d m (0 + i) (some f) = f.toRat := by
      intro i _
      simp [computeWait]
    rw [List.map_congr_left this]
    simp [List.map_const]
  · intro hd hm a b hab
    exact mul_lt_mul_of_pos_left (pow_lt_pow_right₀ hm hab) hd

theorem claim_C6_witness :
    (withRateLimitRetry (fun _ => (Except.error rl429Exn : Except PyExn Unit)) 3 60 2).sleeps
        = [60, 120, 240] ∧
    (withRateLimitRetry (fun _ => (Except.error hint2113Exn : Except PyExn Unit)) 3 60 2).sleeps
        = [2113 / 100, 2113 / 100, 2113 / 100] := by
  obtain ⟨ha, hb, _⟩ := claim_C6 rl429Exn hint2113Exn 60 2 3 ⟨2113, 2⟩
    (by decide) (by decide) (by decide) (by decide)
  constructor
  · rw [ha, show List.range 3 = [0, 1, 2] from by decide]
    norm_num
  · rw [hb]
    norm_num [PyFloat.toRat, List.replicate_succ]

/-! ## Claim C7 -/

theorem pyInt_mono {p q : ℚ} (h : p ≤ q) : pyInt p ≤ pyInt q := by
  unfold pyInt
  split_ifs with h1 h2 h3
  · exact Int.floor_le_floor h
  · exact absurd (le_trans h1 h) h2
  · calc ⌈p⌉ ≤ 0 := Int.ceil_le.mpr (by exact_mod_cast le_of_lt (not_le.mp h1))
      _ ≤ ⌊q⌋ := Int.floor_nonneg.mpr h3
  · exact Int.ceil_le_ceil h

theorem pyInt_intCast (z : ℤ) : pyInt ((z : ℤ) : ℚ) = z := by
  unfold pyInt
  split_ifs <;> simp

theorem progressValue_le (s e : ℤ) (n i : Nat) : progressValue s e n i ≤ e :=
  min_le_right _ _

theorem progressValue_mono (s e : ℤ) (n : Nat) (hse : s ≤ e) {i j : Nat} (hij : i ≤ j) :
    progressValue s e n i ≤ progressValue s e n j := by
  unfold progressValue
  refine min_le_min (pyInt_mono ?_) le_rfl
  have hper : (0 : ℚ) ≤ ((e : ℚ) - (s : ℚ)) / (n : ℚ) := by
    apply div_nonneg
    · have hq : ((s : ℤ) : ℚ) ≤ ((e : ℤ) : ℚ) := Int.cast_le.mpr hse
      linarith
    · positivity
  have hij1 : ((i : ℚ) + 1) ≤ ((j : ℚ) + 1) := by
    have hq : ((i : ℕ) : ℚ) ≤ ((j : ℕ) : ℚ) := Nat.cast_le.mpr hij
    linarith
  have h2 := mul_le_mul_of_nonneg_right hij1 hper
  linarith

theorem progressValue_last (s e : ℤ) (n : Nat) (hn : 0 < n) :
    progressValue s e n (n - 1) = e := by
  unfold progressValue
  have h1n : (1 : ℕ) ≤ n := hn
  have hcast : ((n - 1 : ℕ) : ℚ) + 1 = (n : ℚ) := by
    rw [Nat.cast_sub h1n]
    norm_num
  rw [hcast]
  have hne : ((n : ℕ) : ℚ) ≠ 0 := Nat.cast_ne_zero.mpr hn.ne'
  have hmul : (n : ℚ) * (((e : ℚ) - (s : ℚ)) / (n : ℚ)) = (e : ℚ) - (s : ℚ) := by
    field_simp
  rw [hmul]
  have hsum : (s : ℚ) + ((e : ℚ) - (s : ℚ)) = ((e : ℤ) : ℚ) := by ring
  rw [hsum, pyInt_intCast]
  exact min_self e

theorem summarizeBatchAux_results_length {A : Type} (op : Nat → A → Except PyExn String)
    (s e : ℤ) (n : Nat) :
    ∀ (l : List A) (idx : Nat),
      (summarizeBatchAux op s e n l idx).results.length = l.length := by
  intro l
  induction l with
  | nil => intro idx; rfl
  | cons hd tl ih => intro idx; simp [summarizeBatchAux, ih (idx + 1)]

theorem summarizeBatchAux_results_getElem {A : Type} (op : Nat → A → Except PyExn String)
    (s e : ℤ) (n : Nat) :
    ∀ (l : List A) (idx i : Nat) (a : A), l[i]? = some a →
      (summarizeBatchAux op s e n l idx).results[i]? =
        some (match op (idx + i) a with
              | Except.ok str => str
              | Except.error _ => "") := by
  intro l
  induction l with
  | nil => intro idx i a h; simp at h
  | cons hd tl ih =>
    intro idx i a h
    cases i with
    | zero =>
      simp only [List.getElem?_cons_zero, Option.some.injEq] at h
      subst h
      simp [summarizeBatchAux]
    | succ j =>
      simp only [List.getElem?_cons_succ] at h
      rw [show (idx + (j + 1)) = (idx + 1) + j from by omega]
      rw [← ih (idx + 1) j a h]
      simp [summarizeBatchAux]

theorem summarizeBatchAux_progress {A : Type} (op : Nat → A → Except PyExn String)
    (s e : ℤ) (n : Nat) :
    ∀ (l : List A) (idx : Nat),
      (summarizeBatchAux op s e n l idx).progress
        = (List.range l.length).map (fun i => progressValue s e n (idx + i)) := by
  intro l
  induction l with
  | nil => intro idx; rfl
  | cons hd tl ih =>
    intro idx
    simp only [summarizeBatchAux, List.length_cons]
    rw [List.range_succ_eq_map, List.map_cons, List.map_map]
    show progressValue s e n idx :: _ = _
    congr 1
    rw [ih (idx + 1)]
    refine List.map_congr_left ?_
    intro i _
    simp only [Function.comp_apply]
    have hidx : idx + 1 + i = idx + Nat.succ i := by omega
    rw [hidx]

/-- Claim C7: a batch over a nonempty item list with window
`[start, end]` returns exactly one result per item in order (a failed
item contributes the `""` sentinel rather than aborting); the progress
reported after item `i` is `int(start + (i+1)/N * (end-start))`
clamped to `end`; the reported sequence is non-decreasing, bounded by
`end`, and its final value is `end`. -/
theorem claim_C7 {A : Type} (items : List A) (op : Nat → A → Except PyExn String)
    (startP endP : ℤ) (hne : items ≠ []) (hse : startP ≤ endP) :
    (summarizeBatch items op startP endP).results.length = items.length ∧
    (∀ (i : Nat) (a : A), items[i]? = some a →
      (summarizeBatch items op startP endP).results[i]? =
        some (match op i a with
              | Except.ok str => str
              | Except.error _ => "")) ∧
    (∀ i : Nat, i < items.length →
      (summarizeBatch items op startP endP).progress[i]? =
        some (min (pyInt ((startP : ℚ) +
          ((i : ℚ) + 1) / ((items.length : ℕ) : ℚ) * ((endP : ℚ) - (startP : ℚ)))) endP)) ∧
    (summarizeBatch items op startP endP).progress.Sorted (· ≤ ·) ∧
    (∀ p ∈ (summarizeBatch items op startP endP).progress, p ≤ endP) ∧
    (summarizeBatch items op startP endP).progress.getLast? = some endP := by
  have hprog := summarizeBatchAux_progress op startP endP items.length items 0
  have hN : 0 < items.length := List.length_pos.mpr hne
  refine ⟨?_, ?_, ?_, ?_, ?_, ?_⟩
  · exact summarizeBatchAux_results_length op startP endP items.length items 0
  · intro i a h
    have := summarizeBatchAux_results_getElem op startP endP items.length items 0 i a h
    rwa [Nat.zero_add] at this
  · intro i hi
    unfold summarizeBatch
    rw [hprog, List.getElem?_map, List.getElem?_range hi]
    simp only [Option.map_some']
    congr 1
    unfold progressValue
    rw [Nat.zero_add]
    congr 2
    ring
  · unfold summarizeBatch
    rw [hprog]
    refine List.Pairwise.map _ ?_ (List.pairwise_lt_range items.length)
    intro a b hab
    exact progressValue_mono startP endP items.length hse (by omega)
  · intro p hp
    unfold summarizeBatch at hp
    rw [hprog] at hp
    obtain ⟨i, _, hpi⟩ := List.mem_map.mp hp
    rw [← hpi]
    exact progressValue_le startP endP items.length (0 + i)
  · unfold summarizeBatch
    rw [hprog, List.getLast?_eq_getElem?]
    have hlen : ((List.range items.length).map
        (fun i => progressValue startP endP items.length (0 + i))).length = items.length := by
      simp
    rw [hlen, List.getElem?_map, List.getElem?_range (by omega)]
    simp only [Option.map_some', Nat.zero_add]
    rw [progressValue_last startP endP items.length hN]

theorem claim_C7_witness :
    (summarizeBatch ["alpha", "beta"]
        (fun i _ => if i == 0 then Except.error boomExn else Except.ok goodSummary)
        10 80).results.length = 2 ∧
    (summarizeBatch ["alpha", "beta"]
        (fun i _ => if i == 0 then Except.error boomExn else Except.ok goodSummary)
        10 80).progress.getLast? = some 80 := by
  have h := claim_C7 ["alpha", "beta"]
    (fun i _ => if i == 0 then Except.error boomExn else Except.ok goodSummary)
    10 80 (by simp) (by norm_num)
  exact ⟨h.1, h.2.2.2.2.2⟩

/-! ## Claim C2 -/

theorem length_filter_split (p : String → Bool) :
    ∀ l : List String,
      (l.filter p).length + (l.filter (fun s => !p s)).length = l.length := by
  intro l
  induction l with
  | nil => rfl
  | cons hd tl ih =>
    by_cases h : p hd
    · simp [List.filter_cons, h]
      omega
    · have h2 : p hd = false := by simpa using h
      simp [List.filter_cons, h2]
      omega

theorem failed_add_valid (tts imgs : List String) :
    failedCount tts imgs + validCount tts imgs = tts.length + imgs.length := by
  unfold failedCount validCount
  have h1 := length_filter_split isFailedTextSummary tts
  have h2 := length_filter_split isFailedImageSummary imgs
  omega

/-- Claim C2: with at least one summary, if every summary is classified
as failed (empty, stripped length below 20 for text/table, or
`"[ERROR]"`-tagged) then `build_summaries` raises and the document is
marked failed; likewise when the failed fraction exceeds 0.9; and for a
failed fraction of at most 0.5 the breaker passes and, when indexing
succeeds, the document completes. -/
theorem claim_C2 (tts imgs : List String) :
    ((1 ≤ tts.length + imgs.length ∧
        (∀ s ∈ tts, isFailedTextSummary s = true) ∧
        (∀ s ∈ imgs, isFailedImageSummary s = true)) →
      (circuitBreaker tts imgs).isOk = false ∧
        pipelineFinalStatus tts imgs true = DocStatus.failed) ∧
    ((failedCount tts imgs : ℚ) / ((tts.length + imgs.length : ℕ) : ℚ) > 9 / 10 →
      (circuitBreaker tts imgs).isOk = false ∧
        pipelineFinalStatus tts imgs true = DocStatus.failed) ∧
    ((failedCount tts imgs : ℚ) / ((tts.length + imgs.length : ℕ) : ℚ) ≤ 1 / 2 →
      circuitBreaker tts imgs = Except.ok () ∧
        pipelineFinalStatus tts imgs true = DocStatus.completed) := by
  have hfv := failed_add_valid tts imgs
  refine ⟨?_, ?_, ?_⟩
  · rintro ⟨htot, h1, h2⟩
    have e1 : tts.filter (fun s => !isFailedTextSummary s) = [] := by
      rw [List.filter_eq_nil_iff]
      intro a ha
      simp [h1 a ha]
    have e2 : imgs.filter (fun s => !isFailedImageSummary s) = [] := by
      rw [List.filter_eq_nil_iff]
      intro a ha
      simp [h2 a ha]
    have hv : validCount tts imgs = 0 := by
      unfold validCount
      rw [e1, e2]
      rfl
    have htne : tts.length + imgs.length ≠ 0 := by omega
    unfold pipelineFinalStatus circuitBreaker
    simp [htne, hv, Except.isOk, Except.toBool]
  · intro hr
    have htne : tts.length + imgs.length ≠ 0 := by
      intro h0
      rw [h0] at hr
      norm_num at hr
    push_cast at hr
    by_cases hv : validCount tts imgs = 0
    · unfold pipelineFinalStatus circuitBreaker
      simp [htne, hv, Except.isOk, Except.toBool]
    · unfold pipelineFinalStatus circuitBreaker
      simp [htne, hv, hr, Except.isOk, Except.toBool]
  · intro hr
    by_cases htot : tts.length + imgs.length = 0
    · constructor
      · unfold circuitBreaker
        simp [htot]
      · unfold pipelineFinalStatus circuitBreaker
        simp [htot]
    · have htpos : 0 < tts.length + imgs.length := Nat.pos_of_ne_zero htot
      have hvne : validCount tts imgs ≠ 0 := by
        intro hv
        have hfc : failedCount tts imgs = tts.length + imgs.length := by omega
        rw [hfc] at hr
        have hqpos : (0 : ℚ) < ((tts.length + imgs.length : ℕ) : ℚ) :=
          Nat.cast_pos.mpr htpos
        rw [div_self (ne_of_gt hqpos)] at hr
        norm_num at hr
      have hno : ¬ ((failedCount tts imgs : ℚ)
          / ((tts.length + imgs.length : ℕ) : ℚ) > 9 / 10) := by
        intro hgt
        linarith
      push_cast at hno
      constructor
      · unfold circuitBreaker
        simp [htot, hvne, hno]
      · unfold pipelineFinalStatus circuitBreaker
        simp [htot, hvne, hno]

theorem claim_C2_witness :
    pipelineFinalStatus ["", "no"] [] true = DocStatus.failed ∧
    circuitBreaker ["", goodSummary] [] = Except.ok () ∧
    pipelineFinalStatus ["", goodSummary] [] true = DocStatus.completed := by
  have hfc : failedCount ["", goodSummary] [] = 1 := by decide
  have hle : (failedCount ["", goodSummary] [] : ℚ)
      / (((["", goodSummary] : List String).length + ([] : List String).length : ℕ) : ℚ)
        ≤ 1 / 2 := by
    rw [hfc]
    simp only [List.length_cons, List.length_nil]
    norm_num
  have h1 := (claim_C2 ["", "no"] []).1 ⟨by simp, by decide, by decide⟩
  have h3 := (claim_C2 ["", goodSummary] []).2.2 hle
  exact ⟨h1.2, h3.1, h3.2⟩

/-! ## Claim C3 -/

/-- Claim C3 counterexample: a credential (invalid-API-key) failure on
one item does not abort the document.  `_summarize_one` returns the
empty summary for that item, the batch continues with the remaining
items (two results come back), and with one valid summary the breaker
passes, so the document can even complete. -/
theorem claim_C3_counterexample :
    isApiKeyError authExn = true ∧
    (summarizeTextsAndTables ["secret element text", "other text"]
        (fun i => if i == 0 then Except.error authExn else Except.ok goodSummary)
        10 80).results = ["", goodSummary] ∧
    pipelineFinalStatus ["", goodSummary] [] true = DocStatus.completed := by
  refine ⟨by decide, by decide, ?_⟩
  have hfc : failedCount ["", goodSummary] [] = 1 := by decide
  have hv : validCount ["", goodSummary] [] = 1 := by decide
  unfold pipelineFinalStatus circuitBreaker
  simp [hfc, hv]
  norm_num

/-- Claim C3, amended: a credential failure on an item yields an empty
summary for that item (text/table) or an `"[ERROR] API key invalid"`
stand-in (image) and processing continues — the document is not
aborted mid-batch; any other per-item error yields the
truncated-original-text stand-in (text/table) or an error-tagged
stand-in (image); a batch always returns one result per item, so
document failure can then arise only from the circuit breaker. -/
theorem claim_C3 (element : String) (e eo : PyExn) (items : List String)
    (calls : Nat → Except PyExn String) (startP endP : ℤ)
    (hkey : isApiKeyError e = true) (hno : isApiKeyError eo = false)
    (hblank : pyStrip element ≠ "") :
    summarizeOne element (Except.error e) = "" ∧
    summarizeOne element (Except.error eo) = truncate200 element ∧
    summImg (Except.error e) = "[ERROR] API key invalid" ∧
    (summarizeTextsAndTables items calls startP endP).results.length = items.length := by
  refine ⟨?_, ?_, ?_, ?_⟩
  · unfold summarizeOne
    split
    · rfl
    · simp [hkey]
  · have hb : ¬ ((pyStrip element == "") = true) := by simpa using hblank
    unfold summarizeOne
    rw [if_neg hb]
    simp [hno]
  · unfold summImg
    simp [hkey]
  · unfold summarizeTextsAndTables summarizeBatch
    exact summarizeBatchAux_results_length _ startP endP items.length items 0

theorem claim_C3_witness :
    summarizeOne "some element text" (Except.error authExn) = "" ∧
    summarizeOne "some element text" (Except.error boomExn)
        = truncate200 "some element text" ∧
    summImg (Except.error authExn) = "[ERROR] API key invalid" := by
  have h := claim_C3 "some element text" authExn boomExn [] (fun _ => Except.ok "") 0 0
    (by decide) (by decide) (by decide)
  exact ⟨h.1, h.2.1, h.2.2.1⟩

/-! ## Claim C1 -/

theorem lookup_none_any_false :
    ∀ (m : List (String × Parent)) (k : String), lookupDict m k = none →
      m.any (fun kv => kv.1 == k) = false := by
  intro m k
  induction m with
  | nil => intro _; rfl
  | cons kv tl ih =>
    intro h
    unfold lookupDict at h
    revert h
    cases hk : (kv.1 == k) with
    | true => intro h; simp at h
    | false =>
      intro h
      simp only [List.any_cons, hk, Bool.false_or]
      exact ih (by simpa using h)

theorem dictSet_fresh {m : List (String × Parent)} {k : String} (v : Parent)
    (h : lookupDict m k = none) : dictSet m k v = m ++ [(k, v)] := by
  unfold dictSet
  rw [lookup_none_any_false m k h]
  simp

theorem lookupDict_append (a b : List (String × Parent)) (k : String) :
    lookupDict (a ++ b) k =
      match lookupDict a k with
      | some v => some v
      | none => lookupDict b k := by
  induction a with
  | nil => rfl
  | cons kv tl ih =>
    simp only [List.cons_append, lookupDict]
    cases hk : (kv.1 == k) with
    | true => simp
    | false => simpa using ih

theorem foldl_dictSet_fresh :
    ∀ (pairs : List (Parent × String)) (m0 : List (String × Parent)),
      (∀ ks ∈ pairs.map Prod.snd, lookupDict m0 ks = none) →
      (pairs.map Prod.snd).Nodup →
      pairs.foldl (fun m pv => dictSet m pv.2 pv.1) m0
        = m0 ++ pairs.map (fun pv => (pv.2, pv.1)) := by
  intro pairs
  induction pairs with
  | nil => intro m0 _ _; simp
  | cons pv tl ih =>
    intro m0 hfresh hnodup
    simp only [List.map_cons, List.nodup_cons] at hnodup
    simp only [List.foldl_cons]
    have h1 : lookupDict m0 pv.2 = none := hfresh pv.2 (by simp)
    rw [dictSet_fresh pv.1 h1]
    have hfresh2 : ∀ ks ∈ tl.map Prod.snd, lookupDict (m0 ++ [(pv.2, pv.1)]) ks = none := by
      intro ks hks
      rw [lookupDict_append, hfresh ks (by simp [hks])]
      have hne : (pv.2 == ks) = false := by
        simp only [beq_eq_false_iff_ne, ne_eq]
        intro heq
        exact hnodup.1 (heq ▸ hks)
      simp [lookupDict, hne]
    rw [ih (m0 ++ [(pv.2, pv.1)]) hfresh2 hnodup.2]
    simp

theorem lookupDict_map_swap_zip :
    ∀ (ps : List Parent) (ks : List String), ks.Nodup →
      ∀ (i : Nat) (hi : i < ks.length), i < ps.length →
        lookupDict ((ps.zip ks).map (fun pv => (pv.2, pv.1))) (ks.get ⟨i, hi⟩)
          = ps[i]? := by
  intro ps
  induction ps with
  | nil => intro ks _ i _ hip; simp at hip
  | cons p pt ih =>
    intro ks hnodup i hi hip
    cases ks with
    | nil => simp at hi
    | cons k kt =>
      rw [List.nodup_cons] at hnodup
      cases i with
      | zero => simp [lookupDict]
      | succ j =>
        have hj : j < kt.length := by simpa using hi
        have hjp : j < pt.length := by simpa using hip
        have hmem : kt.get ⟨j, hj⟩ ∈ kt := List.get_mem kt j hj
        have hne : (k == kt.get ⟨j, hj⟩) = false := by
          simp only [beq_eq_false_iff_ne, ne_eq]
          intro he
          exact hnodup.1 (he ▸ hmem)
        have hrec := ih kt hnodup.2 j hj hjp
        simp only [List.zip_cons_cons, List.map_cons, lookupDict, hne, List.get_cons_succ,
          List.getElem?_cons_succ]
        simpa using hrec

/-- Claim C1: after `index_multivector` stores each aligned parent
under a freshly generated child id, loading the persisted map for the
document and looking the id up returns a value equal to the original
parent; for a child id absent from the map — including when no map
file exists for the document — resolution returns `none` rather than
raising. -/
theorem claim_C1 (store : PStore) (docId : String)
    (textTables images : List Parent) (ttSumm imgSumm : List String) (ids : List String)
    (hlen : (parentsIndexed textTables images ttSumm imgSumm).length = ids.length)
    (hnodup : ids.Nodup)
    (hfresh : ∀ cid ∈ ids, lookupDict (loadParentsIndex store docId) cid = none) :
    (∀ (i : Nat) (hi : i < ids.length),
      resolveParent
        (indexMultivector store docId textTables images ttSumm imgSumm ids)
        docId (ids.get ⟨i, hi⟩)
        = (parentsIndexed textTables images ttSumm imgSumm)[i]?) ∧
    (∀ d c : String, store d = none → resolveParent store d c = none) ∧
    (∀ d c : String, lookupDict (loadParentsIndex store d) c = none →
      resolveParent store d c = none) := by
  refine ⟨?_, ?_, ?_⟩
  · intro i hi
    have hkeys : ((parentsIndexed textTables images ttSumm imgSumm).zip ids).map Prod.snd
        = ids := List.map_snd_zip _ _ (le_of_eq hlen.symm)
    have hfold := foldl_dictSet_fresh
      ((parentsIndexed textTables images ttSumm imgSumm).zip ids)
      (loadParentsIndex store docId)
      (by rw [hkeys]; exact hfresh) (by rw [hkeys]; exact hnodup)
    unfold resolveParent indexMultivector
    simp only [loadParentsIndex, beq_self_eq_true, if_true, Option.getD_some]
    unfold loadParentsIndex at hfold hfresh
    rw [hfold, lookupDict_append, hfresh (ids.get ⟨i, hi⟩) (List.get_mem ids i hi)]
    exact lookupDict_map_swap_zip (parentsIndexed textTables images ttSumm imgSumm)
      ids hnodup i hi (by omega)
  · intro d c h
    unfold resolveParent loadParentsIndex
    rw [h]
    rfl
  · intro d c h
    unfold resolveParent
    exact h

theorem claim_C1_witness :
    resolveParent exStoreIndexed "doc1" "child-a" = some exParentText ∧
    resolveParent exStoreIndexed "doc1" "missing-child" = none ∧
    resolveParent exStoreIndexed "doc2" "child-a" = none := by
  have h := claim_C1 exStoreEmpty "doc1" [exParentText, exParentTable] []
    ["first summary", "second summary"] [] ["child-a", "child-b"]
    (by decide) (by decide) (by decide)
  have h2 := claim_C1 exStoreIndexed "doc1" [] [] [] [] []
    (by decide) (by decide) (by decide)
  refine ⟨?_, ?_, ?_⟩
  · have h0 := h.1 0 (by decide)
    exact h0.trans (by decide)
  · exact h2.2.2 "doc1" "missing-child" (by decide)
  · exact h2.2.1 "doc2" "child-a" (by decide)

/-! ## Claim C8 -/

theorem round4_mono {p q : ℚ} (h : p ≤ q) : round4 p ≤ round4 q := by
  unfold round4
  have hr : round (p * 10000) ≤ round (q * 10000) := by
    rw [round_eq, round_eq]
    exact Int.floor_le_floor (by linarith)
  have hc : ((round (p * 10000) : ℤ) : ℚ) ≤ ((round (q * 10000) : ℤ) : ℚ) :=
    Int.cast_le.mpr hr
  linarith

theorem round4_zero : round4 0 = 0 := by
  unfold round4
  rw [zero_mul, round_zero]
  norm_num

theorem round4_one : round4 1 = 1 := by
  unfold round4
  rw [one_mul, show ((10000 : ℚ)) = ((10000 : ℤ) : ℚ) from by norm_num, round_intCast]
  norm_num

theorem round4_bounds {x : ℚ} (h0 : 0 ≤ x) (h1 : x ≤ 1) :
    0 ≤ round4 x ∧ round4 x ≤ 1 :=
  ⟨round4_zero ▸ round4_mono h0, round4_one ▸ round4_mono h1⟩

theorem clamp01_bounds (y : ℚ) : 0 ≤ max 0 (min 1 y) ∧ max 0 (min 1 y) ≤ 1 :=
  ⟨le_max_left 0 _, max_le (by norm_num) (min_le_left 1 y)⟩

theorem normalizeScore_bounds (nf : Option ℚ) (isD : Bool) (maxS raw : ℚ) :
    0 ≤ normalizeScore nf isD maxS raw ∧ normalizeScore nf isD maxS raw ≤ 1 := by
  cases nf with
  | some nfv =>
    cases isD with
    | true => exact clamp01_bounds _
    | false =>
      simp only [normalizeScore]
      split_ifs with h1 h2
      · exact ⟨le_min (by norm_num) (div_nonneg (by linarith) (le_of_lt h2)),
          min_le_left 1 _⟩
      · norm_num
      · exact clamp01_bounds raw
  | none =>
    cases isD with
    | true =>
      simp only [normalizeScore]
      split_ifs with h1 h2
      · exact ⟨le_min (by norm_num) (div_nonneg (by linarith) (le_of_lt h2)),
          min_le_left 1 _⟩
      · norm_num
      · exact clamp01_bounds raw
    | false =>
      simp only [normalizeScore]
      split_ifs with h1 h2
      · exact ⟨le_min (by norm_num) (div_nonneg (by linarith) (le_of_lt h2)),
          min_le_left 1 _⟩
      · norm_num
      · exact clamp01_bounds raw

theorem takeSources_length (store : PStore) (documentId : Option String)
    (includeImages : Bool) (nf : Option ℚ) (isD : Bool) (maxS : ℚ) (k : Nat) :
    ∀ (l : List Hit) (taken : Nat), taken < k →
      (takeSources store documentId includeImages nf isD maxS k l taken).length
        ≤ k - taken := by
  intro l
  induction l with
  | nil => intro taken _; simp [takeSources]
  | cons h tl ih =>
    intro taken htk
    unfold takeSources
    split
    · exact ih taken htk
    · split
      · simp only [List.length_cons, List.length_nil]
        omega
      · rename_i hk2
        simp only [List.length_cons]
        have hrec := ih (taken + 1) (by omega)
        omega

theorem takeSources_scores (store : PStore) (documentId : Option String)
    (includeImages : Bool) (nf : Option ℚ) (isD : Bool) (maxS : ℚ) (k : Nat) :
    ∀ (l : List Hit) (taken : Nat) (s : SourceR),
      s ∈ takeSources store documentId includeImages nf isD maxS k l taken →
      0 ≤ s.score ∧ s.score ≤ 1 := by
  intro l
  induction l with
  | nil => intro taken s hs; simp [takeSources] at hs
  | cons h tl ih =>
    intro taken s hs
    unfold takeSources at hs
    split at hs
    · exact ih taken s hs
    · have hbounds := normalizeScore_bounds nf isD maxS h.score
      split at hs
      · rw [List.mem_singleton] at hs
        subst hs
        exact round4_bounds hbounds.1 hbounds.2
      · rw [List.mem_cons] at hs
        cases hs with
        | inl hs =>
          subst hs
          exact round4_bounds hbounds.1 hbounds.2
        | inr hs => exact ih (taken + 1) s hs

/-- Claim C8 counterexample: with `k = 0` and one surviving hit the
engine still returns one result (the `taken >= k` check sits after the
append), so "at most `k` results for every `k`" fails at `k = 0`. -/
theorem claim_C8_counterexample :
    (retrieveWithSources exStoreIndexed [exHit] 0 none true).length = 1 ∧
    ¬ ((retrieveWithSources exStoreIndexed [exHit] 0 none true).length ≤ 0) := by
  have h : (retrieveWithSources exStoreIndexed [exHit] 0 none true).length = 1 := by
    decide
  exact ⟨h, by rw [h]; omega⟩

/-- Claim C8, amended: for every `k ≥ 1`, search returns at most `k`
results after the doc-id, type and parent-resolvability filters; every
returned normalized score lies in `[0, 1]`; and the returned list is
sorted in descending order of normalized score. -/
theorem claim_C8 (store : PStore) (hits : List Hit) (k : Nat)
    (documentId : Option String) (includeImages : Bool) (hk : 1 ≤ k) :
    (retrieveWithSources store hits k documentId includeImages).length ≤ k ∧
    (∀ s ∈ retrieveWithSources store hits k documentId includeImages,
      0 ≤ s.score ∧ s.score ≤ 1) ∧
    (retrieveWithSources store hits k documentId includeImages).Sorted scoreGE := by
  refine ⟨?_, ?_, ?_⟩
  · unfold retrieveWithSources
    rw [(List.perm_insertionSort scoreGE _).length_eq]
    refine le_trans
      (takeSources_length store documentId includeImages _ _ _ k hits 0 (by omega)) ?_
    omega
  · intro s hs
    unfold retrieveWithSources at hs
    rw [(List.perm_insertionSort scoreGE _).mem_iff] at hs
    exact takeSources_scores store documentId includeImages _ _ _ k hits 0 s hs
  · unfold retrieveWithSources
    exact List.sorted_insertionSort scoreGE _

theorem claim_C8_witness :
    (retrieveWithSources exStoreIndexed [exHit] 1 none true).length ≤ 1 :=
  (claim_C8 exStoreIndexed [exHit] 1 none true (by norm_num)).1

/-! ## Claim C9 -/

theorem joinBuffer_single (x : String) : joinBuffer [x] = x := by
  unfold joinBuffer
  rw [List.flatMap_cons, List.flatMap_nil, List.append_nil]
  rfl

theorem startsWith_errorTag (t u : String) :
    pyStartsWith ("[ERROR: " ++ t ++ u) "[ERROR:" = true := by
  rw [String.append_assoc]
  rfl

theorem runStreamAux_fail (attempts : Nat → List String × Option PyExn)
    (maxRetries : Nat) (jitterAt : Nat → ℚ)
    (hfail : ∀ r, ((attempts r).2).isSome = true) :
    ∀ (fuel retry : Nat), retry ≤ maxRetries → retry + fuel = maxRetries + 1 →
      ∃ e : PyExn,
        SEvent.errorTag ("[ERROR: " ++ e.text ++ "]")
            ∈ (runStreamAux attempts maxRetries jitterAt retry fuel).1 ∧
        ((∀ r, (attempts r).1.filter (fun c => !(c == "")) = []) →
          (runStreamAux attempts maxRetries jitterAt retry fuel).2
            = ["[ERROR: " ++ e.text ++ "]"]) := by
  intro fuel
  induction fuel with
  | zero => intro retry hle hsum; omega
  | succ n ih =>
    intro retry hle hsum
    cases h2 : (attempts retry).2 with
    | none =>
      have := hfail retry
      rw [h2] at this
      simp at this
    | some e =>
      by_cases hguard : (isRateLimitError e && decide (retry < maxRetries)) = true
      · have hlt : retry < maxRetries := by
          rw [Bool.and_eq_true, decide_eq_true_eq] at hguard
          exact hguard.2
        obtain ⟨e2, hmem2, hbuf2⟩ := ih (retry + 1) (by omega) (by omega)
        refine ⟨e2, ?_, ?_⟩
        · unfold runStreamAux
          rw [h2]
          simp only [hguard, if_true]
          simp [hmem2]
        · intro hempty
          simp only [runStreamAux]
          rw [h2]
          simp only [hguard, if_true]
          simp [hempty retry, hbuf2 hempty]
      · refine ⟨e, ?_, ?_⟩
        · unfold runStreamAux
          rw [h2]
          simp only [hguard, if_false, Bool.false_eq_true]
          simp
        · intro hempty
          simp only [runStreamAux]
          rw [h2]
          simp only [hguard, if_false, Bool.false_eq_true]
          simp [hempty retry]

/-- Claim C9 counterexample: a run that emits a content chunk and then
fails unrecoverably appends the error tag to the buffer and persists
the combined text as the assistant answer — the erroring output is not
withheld from the message store when content preceded the failure. -/
theorem claim_C9_counterexample :
    (runStream (fun _ => (["Hello"], some boomExn)) 3 (fun _ => 0)).persisted
        = some "Hello[ERROR: boom]" ∧
    (runStream (fun _ => (["Hello"], some boomExn)) 3 (fun _ => 0)).events
        = [SEvent.content "Hello", SEvent.errorTag "[ERROR: boom]",
           SEvent.endMarker] := by
  constructor
  · decide
  · decide

/-- Claim C9, amended: when every attempt of a streaming run fails, an
error-tagged chunk is emitted before the terminal end marker; a run
that produced no content chunks before failing is not persisted (its
buffer starts with the error tag); a run with prior content chunks is
persisted together with the trailing error tag (see the
counterexample). -/
theorem claim_C9 (attempts : Nat → List String × Option PyExn)
    (maxRetries : Nat) (jitterAt : Nat → ℚ)
    (hfail : ∀ r, ((attempts r).2).isSome = true) :
    (∃ pre, (runStream attempts maxRetries jitterAt).events = pre ++ [SEvent.endMarker] ∧
      ∃ msg, SEvent.errorTag msg ∈ pre) ∧
    ((∀ r, (attempts r).1.filter (fun c => !(c == "")) = []) →
      (runStream attempts maxRetries jitterAt).persisted = none) := by
  obtain ⟨e, hmem, hbuf⟩ := runStreamAux_fail attempts maxRetries jitterAt hfail
    (maxRetries + 1) 0 (by omega) (by omega)
  constructor
  · exact ⟨(runStreamAux attempts maxRetries jitterAt 0 (maxRetries + 1)).1, rfl,
      "[ERROR: " ++ e.text ++ "]", hmem⟩
  · intro hempty
    unfold runStream
    rw [hbuf hempty, joinBuffer_single, startsWith_errorTag]
    simp

theorem claim_C9_witness :
    (runStream (fun _ => ([], some boomExn)) 3 (fun _ => 0)).persisted = none :=
  (claim_C9 (fun _ => ([], some boomExn)) 3 (fun _ => 0) (fun _ => rfl)).2
    (fun _ => rfl)

/-! ## Claim C10 -/

/-- Claim C10: the document-listing endpoint never returns a document
whose stored status is "failed" (such rows are filtered out), and a
stored record lacking the status attribute is listed with the default
status "completed". -/
theorem claim_C10 (docs : List StoredDoc) :
    (∀ r ∈ getDocuments docs, r.status ≠ "failed") ∧
    (∀ d ∈ docs, d.status = none →
      renderDoc d ∈ getDocuments docs ∧ (renderDoc d).status = "completed") := by
  constructor
  · intro r hr
    unfold getDocuments at hr
    obtain ⟨d, hd, hrd⟩ := List.mem_map.mp hr
    rw [List.mem_filter] at hd
    rw [← hrd]
    show (renderDoc d).status ≠ "failed"
    unfold renderDoc
    simpa using hd.2
  · intro d hd hnone
    have hst : getattrStatus d = "completed" := by
      unfold getattrStatus
      rw [hnone]
      rfl
    constructor
    · unfold getDocuments
      refine List.mem_map.mpr ⟨d, ?_, rfl⟩
      rw [List.mem_filter]
      exact ⟨hd, by simp [hst]⟩
    · exact hst

theorem claim_C10_witness :
    renderDoc exDocNoStatus ∈ getDocuments [exDocFailed, exDocNoStatus] ∧
    (renderDoc exDocNoStatus).status = "completed" :=
  (claim_C10 [exDocFailed, exDocNoStatus]).2 exDocNoStatus (by simp) rfl
